import Mathlib

/-!
Shallow embedding of `lull::EntityFactory` (src/lullaby/base/entity_factory.h)
and verification of its specification.

The header contains the template/inline implementations of the binary bridge
(the finalizer installed by `InitializeFinalizer`, the decoder
`BlueprintTreeFromEntityDef` with its `component_accessor` and
`detail::ChildAccessor`) and the default `create_child_fn_`.  Those are
translated here directly from the source.  The out-of-line member functions
(`Create` overloads, `CreateImpl`, `Destroy`, `QueueForDestruction`,
`DestroyQueuedEntities`, `PerformReverseTypeLookup`, `CreateTypeList`) live in
`entity_factory.cc`, which is not part of the sources; those, and the
`Blueprint` / `BlueprintTree` containers from `blueprint.h` /
`blueprint_tree.h`, are modelled from the specification, as marked on each
definition.
-/

namespace lull

/-- `HashValue`: semantic type hash of a ComponentDef type name. -/
abbrev HashValue := Nat

/-- `Entity`: opaque numeric identifier (entity.h). -/
abbrev Entity := Nat

/-- `TypeId`: identity of a System (typeid.h). -/
abbrev TypeId := Nat

/-- The null entity sentinel `kNullEntity`. -/
def kNullEntity : Entity := 0

/-- Opaque component payload: stands for the `flatbuffers::Table*` data a
Blueprint entry carries.  A concrete non-null table pointer. -/
abbrev Payload := Nat

/-- Modelled from the spec: a Blueprint entry, one `(type-hash, opaque-payload)`
pair (`blueprint.h` is not among the sources; spec §3: "Blueprint: ordered
sequence of (type-hash, opaque-payload) entries").  `defType` is the value
returned by `Blueprint::GetLegacyDefType`, `defData` the (non-null) table
returned by `Blueprint::GetLegacyDefData`. -/
structure BlueprintEntry where
  defType : HashValue
  defData : Payload
deriving DecidableEq, Repr

/-- Modelled from the spec: a Blueprint is the ordered sequence of its entries,
in insertion order (spec §3). -/
abbrev Blueprint := List BlueprintEntry

/-- Modelled from the spec: a BlueprintTree is a Blueprint plus an ordered
sequence of child BlueprintTrees (`blueprint_tree.h` is not among the
sources; spec §3). -/
inductive BlueprintTree : Type where
  | node (components : Blueprint) (children : List BlueprintTree) : BlueprintTree
deriving Repr

/-- Modelled from the spec: `EntityFactory::PerformReverseTypeLookup` (declared
at entity_factory.h:206, body in the missing entity_factory.cc): "Returns the
index of the specified name in the TypeList, or 0 if not found"; spec §4.2:
linear scan of TypeList, reserved none sentinel (index 0) when absent. -/
def PerformReverseTypeLookup (types : List HashValue) (name : HashValue) : Nat :=
  if name ∈ types then types.indexOf name else 0

/-- One encoded `ComponentDef` table, the record shape of the binary schema
(entity_factory.h:390-391): the `def` union stored as a discriminant scalar
(`def_type`, written via `writer->Scalar`) plus a reference to the union data
(written via `writer->Reference`).  The discriminant is an `int` after the
`static_cast<int>` in the decoder; the reference may be null in raw binary
data, hence `Option`. -/
structure ComponentDefRec where
  def_type : Int
  def_data : Option Payload
deriving DecidableEq, Repr

/-- One encoded `EntityDef` table (entity_factory.h:392-395): a vector of
`ComponentDef`s plus a (possibly absent, here possibly empty) vector of child
`EntityDef`s. -/
inductive EntityDefRec : Type where
  | mk (components : List ComponentDefRec) (children : List EntityDefRec) : EntityDefRec
deriving Repr

/-- The components vector of an `EntityDefRec`. -/
def EntityDefRec.components : EntityDefRec → List ComponentDefRec
  | .mk cs _ => cs

/-- The children vector of an `EntityDefRec`. -/
def EntityDefRec.children : EntityDefRec → List EntityDefRec
  | .mk _ ch => ch

/-- The body of the loop run by the finalizer for one blueprint entry
(entity_factory.h:403-421): reverse-look-up the legacy def type to its
discriminant, and wrap discriminant + data reference into a `ComponentDef`
table appended to the components vector. -/
def finalizeComponent (types : List HashValue) (c : BlueprintEntry) : ComponentDefRec :=
  { def_type := (PerformReverseTypeLookup types c.defType : Int)
    def_data := some c.defData }

/-- The finalizer installed by `EntityFactory::InitializeFinalizer`
(entity_factory.h:396-431): `ForEachComponent` appends one `ComponentDef`
table per blueprint entry, in blueprint order, to a vector
(`writer->AddVectorReference`); then the parent `EntityDef` table referencing
that vector (`EntityDef::VT_COMPONENTS`) is written and its offset returned.
We model the written object graph; offsets into the byte stream are owned by
the external `FlatbufferWriter` and are not modelled.  The finalizer writes no
children vector, so the children field of the resulting `EntityDef` is
absent/empty. -/
def finalizer (types : List HashValue) (blueprint : Blueprint) : EntityDefRec :=
  let components := blueprint.foldl
    (fun acc c => acc ++ [finalizeComponent types c]) []
  .mk components []

/-- The `component_accessor` closure built by
`EntityFactory::BlueprintTreeFromEntityDef` (entity_factory.h:349-362):
reads the component at `index`, takes its `def_type()` as an `int` and its
`def()` table pointer, and yields `(types_[type], table)` when
`0 ≤ type < types_.size()` and the table is non-null, `(0, nullptr)`
otherwise.  `components->Get` on an out-of-range index is modelled as
yielding no component, which also produces `(0, nullptr)`. -/
def component_accessor (types : List HashValue) (components : List ComponentDefRec)
    (index : Nat) : HashValue × Option Payload :=
  match components[index]? with
  | none => (0, none)
  | some component =>
    let type := component.def_type
    let valid_type := 0 ≤ type ∧ type < (types.length : Int)
    if valid_type ∧ component.def_data ≠ none then
      (types.getD type.toNat 0, component.def_data)
    else
      (0, none)

/-- The decoded form of one node: the ordered `(type-hash, payload)` sequence
produced by reading the component accessor at every index `0, …, size-1`
(this is how the `Blueprint` constructed by `BlueprintTree(component_accessor,
components->size(), children)` iterates its components), plus decoded
children. -/
inductive DecodedTree : Type where
  | node (components : List (HashValue × Option Payload))
      (children : List DecodedTree) : DecodedTree
deriving Repr

/-- The components of a decoded node. -/
def DecodedTree.components : DecodedTree → List (HashValue × Option Payload)
  | .node cs _ => cs

/-- `EntityFactory::BlueprintTreeFromEntityDef` (entity_factory.h:340-371):
builds a `BlueprintTree` holding the `component_accessor` over the entity
def's components vector together with `components->size()`, and recursively
decodes every child via `detail::ChildAccessor` (entity_factory.h:319-337),
which walks the `children` vector in order. -/
def BlueprintTreeFromEntityDef (types : List HashValue) : EntityDefRec → DecodedTree
  | .mk components children =>
    .node ((List.range components.length).map (component_accessor types components))
      (children.attach.map (fun c => BlueprintTreeFromEntityDef types c.val))
decreasing_by
  have := List.sizeOf_lt_of_mem c.property
  simp only [EntityDefRec.mk.sizeOf_spec]
  omega

/-- The components of a `BlueprintTree` node. -/
def BlueprintTree.components : BlueprintTree → Blueprint
  | .node bp _ => bp

/-- The children of a `BlueprintTree` node. -/
def BlueprintTree.children : BlueprintTree → List BlueprintTree
  | .node _ cs => cs

/-- The mutable state of an `EntityFactory` (entity_factory.h:229-272):
the id generator `entity_generator_`, the `TypeMap` `type_map_` (ComponentDef
hash to owning System TypeId, modelled as an association list, newest entry
first), the keys of the `SystemMap` `systems_`, the provenance map
`entity_to_blueprint_map_`, the pending-destruction queue `pending_destroy_`,
the components so far attached by System::CreateComponent calls (the
observable effect of dispatch, in call order), and the parent/child links an
overriding `create_child_fn_` would establish (the default never does). -/
structure FactoryState where
  entity_generator : Entity
  type_map : List (HashValue × TypeId)
  systems : List TypeId
  entity_to_blueprint_map : List (Entity × String)
  pending_destroy : List Entity
  attached : List (Entity × HashValue × Payload)
  links : List (Entity × Entity)
deriving Repr

/-- Modelled from the spec: `EntityFactory::GetSystem` (declared at
entity_factory.h:223, body in the missing entity_factory.cc): looks the
ComponentDef hash up in the TypeMap, then the resulting System TypeId up in
the SystemMap; yields the owning System, or nothing when either lookup
fails. -/
def GetSystem (type_map : List (HashValue × TypeId)) (systems : List TypeId)
    (def_type : HashValue) : Option TypeId :=
  match type_map.lookup def_type with
  | none => none
  | some tid => if tid ∈ systems then some tid else none

/-- Modelled from the spec: the per-entry step of the composition algorithm
(spec §4.1 steps 1-2, `CreateImpl` in the missing entity_factory.cc): look up
the owning System; if found, dispatch attach-component with (entity,
payload); if absent, skip the entry. -/
def attachComponent (s : FactoryState) (e : Entity) (c : BlueprintEntry) :
    FactoryState :=
  match GetSystem s.type_map s.systems c.defType with
  | some _ => { s with attached := s.attached ++ [(e, c.defType, c.defData)] }
  | none => s

/-- Modelled from the spec: composing one Blueprint onto an entity — each
entry in insertion order is dispatched or skipped (spec §4.1 steps 1-2). -/
def composeBlueprint (s : FactoryState) (e : Entity) (bp : Blueprint) :
    FactoryState :=
  bp.foldl (fun st c => attachComponent st e c) s

mutual
/-- Modelled from the spec: `CreateImpl(entity, BlueprintTree*)` (declared at
entity_factory.h:217, body in the missing entity_factory.cc): composes the
node's own components onto `e`, then invokes the child-linking function once
per child subtree in order (spec §4.1 step 3); with the default
`create_child_fn_` each child is created as a fresh root via
`Create(BlueprintTree*)`, which allocates the next generator id. -/
def CreateImplAt (s : FactoryState) (e : Entity) : BlueprintTree → FactoryState
  | .node bp cs => createChildren (composeBlueprint s e bp) e cs

/-- Modelled from the spec: the per-child loop of tree composition under the
default child-linking function (spec §4.1 step 3). -/
def createChildren (s : FactoryState) (parent : Entity) :
    List BlueprintTree → FactoryState
  | [] => s
  | c :: cs =>
    createChildren
      (CreateImplAt { s with entity_generator := s.entity_generator + 1 }
        (s.entity_generator + 1) c)
      parent cs
end

/-- Modelled from the spec: `Create(BlueprintTree* blueprint)`
(entity_factory.h:137): allocates a fresh entity id and composes the tree
onto it, returning the root entity. -/
def CreateFromTree (s : FactoryState) (t : BlueprintTree) :
    Entity × FactoryState :=
  let e := s.entity_generator + 1
  (e, CreateImplAt { s with entity_generator := e } e t)

/-- The default `create_child_fn_` (entity_factory.h:270-272): ignores the
parent and simply calls `Create` on the child tree, so the child becomes an
independent root with no parent link. -/
def create_child_fn_default (s : FactoryState) (_parent : Entity)
    (bpt : BlueprintTree) : Entity × FactoryState :=
  CreateFromTree s bpt

/-- Modelled from the spec: `Create()` (entity_factory.h:123, body in the
missing entity_factory.cc): advances the mutex-protected autoincrementing
`entity_generator_` and returns the fresh id (spec §3: monotonically
advancing counter).  The mutex collapses to sequential execution in this
single-threaded model. -/
def Create (s : FactoryState) : Entity × FactoryState :=
  (s.entity_generator + 1, { s with entity_generator := s.entity_generator + 1 })

/-- A sequence of `n` bare `Create()` calls, returning the ids in call
order. -/
def CreateN (s : FactoryState) : Nat → List Entity × FactoryState
  | 0 => ([], s)
  | n + 1 =>
    let r := Create s
    let rest := CreateN r.2 n
    (r.1 :: rest.1, rest.2)

/-- Modelled from the spec: the external collaborators a creation call
consults — the named-asset cache composed with the Loader's decoding (a
blueprint name resolves to the BlueprintTree its cached raw bytes decode to),
and whether a Loader has been configured at all. -/
structure Environment where
  assets : String → Option BlueprintTree
  loaderConfigured : Bool

/-- Modelled from the spec: `Create(Entity entity, BlueprintTree* blueprint)`
(entity_factory.h:147): a null entity or null blueprint makes the call a
no-op returning the null sentinel; otherwise the tree is composed onto the
given entity, which is returned. -/
def CreateOnTree (s : FactoryState) (entity : Entity)
    (blueprint : Option BlueprintTree) : Entity × FactoryState :=
  if entity = kNullEntity then (kNullEntity, s)
  else
    match blueprint with
    | none => (kNullEntity, s)
    | some t => (entity, CreateImplAt s entity t)

/-- Modelled from the spec: `Create(const std::string& name)`
(entity_factory.h:128): resolves the named blueprint through the asset cache
and decodes it via the configured Loader; returns `kNullEntity`, creating
nothing, when the asset is missing or no Loader is configured (spec §4.1);
on success a fresh root entity is composed and tagged in the provenance map
(spec §4.1 step 4). -/
def CreateNamed (env : Environment) (s : FactoryState) (name : String) :
    Entity × FactoryState :=
  match env.assets name with
  | none => (kNullEntity, s)
  | some t =>
    if env.loaderConfigured then
      let e := s.entity_generator + 1
      let s1 := CreateImplAt { s with entity_generator := e } e t
      (e, { s1 with entity_to_blueprint_map :=
        (e, name) :: s1.entity_to_blueprint_map })
    else (kNullEntity, s)

/-- Modelled from the spec: `Create(Entity entity, const std::string& name)`
(entity_factory.h:144): populates an existing entity from the named
blueprint; fails with `kNullEntity` on a null entity, a missing asset or a
missing Loader; on success the entity is tagged in the provenance map. -/
def CreateOnNamed (env : Environment) (s : FactoryState) (entity : Entity)
    (name : String) : Entity × FactoryState :=
  if entity = kNullEntity then (kNullEntity, s)
  else
    match env.assets name with
    | none => (kNullEntity, s)
    | some t =>
      if env.loaderConfigured then
        let s1 := CreateImplAt s entity t
        (entity, { s1 with entity_to_blueprint_map :=
          (entity, name) :: s1.entity_to_blueprint_map })
      else (kNullEntity, s)

/-- Modelled from the spec: `CreateFromBlueprint(const void* data, const
std::string& name)` (entity_factory.h:152): decode raw data plus create,
tagging provenance with `name` (spec §4.1); null data is a no-op returning
the null sentinel, and decoding requires the configured Loader.  As in
`Environment.assets`, the raw bytes are represented by the BlueprintTree
they decode to. -/
def CreateFromBlueprintData (env : Environment) (s : FactoryState)
    (data : Option BlueprintTree) (name : String) : Entity × FactoryState :=
  match data with
  | none => (kNullEntity, s)
  | some t =>
    if env.loaderConfigured then
      let e := s.entity_generator + 1
      let s1 := CreateImplAt { s with entity_generator := e } e t
      (e, { s1 with entity_to_blueprint_map :=
        (e, name) :: s1.entity_to_blueprint_map })
    else (kNullEntity, s)

/-- Modelled from the spec: `Create(Blueprint* blueprint)`
(entity_factory.h:132): a null blueprint is a no-op returning the null
sentinel; otherwise a fresh entity is composed from the blueprint.  No
provenance entry is recorded for this in-memory path (spec §3). -/
def CreateFromBlueprintPtr (s : FactoryState) (blueprint : Option Blueprint) :
    Entity × FactoryState :=
  match blueprint with
  | none => (kNullEntity, s)
  | some bp =>
    let e := s.entity_generator + 1
    (e, composeBlueprint { s with entity_generator := e } e bp)

/-- Modelled from the spec: the pointer-taking `Create(BlueprintTree*)`
surface (entity_factory.h:137): a null tree is a no-op returning the null
sentinel.  No provenance entry is recorded for this in-memory path. -/
def CreateFromTreePtr (s : FactoryState) (blueprint : Option BlueprintTree) :
    Entity × FactoryState :=
  match blueprint with
  | none => (kNullEntity, s)
  | some t => CreateFromTree s t

/-- Modelled from the spec: `Destroy(Entity entity)` (entity_factory.h:158,
body in the missing entity_factory.cc): a null entity is a no-op (spec §7);
otherwise every System detaches the components it owns for the entity and
the provenance entry is removed (spec §4.1). -/
def Destroy (s : FactoryState) (entity : Entity) : FactoryState :=
  if entity = kNullEntity then s
  else
    { s with
      entity_to_blueprint_map :=
        s.entity_to_blueprint_map.filter (fun p => p.1 ≠ entity)
      attached := s.attached.filter (fun r => r.1 ≠ entity) }

/-- Modelled from the spec: `QueueForDestruction(Entity entity)`
(entity_factory.h:162, body in the missing entity_factory.cc): thread-safe
enqueue onto `pending_destroy_`, returning immediately. -/
def QueueForDestruction (s : FactoryState) (entity : Entity) : FactoryState :=
  { s with pending_destroy := s.pending_destroy ++ [entity] }

/-- Modelled from the spec: `DestroyQueuedEntities()` (entity_factory.h:165,
body in the missing entity_factory.cc): drains the queue, calling `Destroy`
for each entry in order. -/
def DestroyQueuedEntities (s : FactoryState) : FactoryState :=
  s.pending_destroy.foldl Destroy { s with pending_destroy := [] }

mutual
/-- The number of entities a tree creates: one for the node plus its
descendants. -/
def treeSize : BlueprintTree → Nat
  | .node _ cs => 1 + treeSizeList cs

/-- The number of entities a list of child subtrees creates. -/
def treeSizeList : List BlueprintTree → Nat
  | [] => 0
  | c :: cs => treeSize c + treeSizeList cs
end

/-- The dispatch record step 1-2 of the composition algorithm produces for a
single entry: the attach call when the owning System resolves, nothing when
the type hash is unresolved and the entry is skipped. -/
def traceComponent (tm : List (HashValue × TypeId)) (sys : List TypeId)
    (e : Entity) (c : BlueprintEntry) : Option (Entity × HashValue × Payload) :=
  match GetSystem tm sys c.defType with
  | some _ => some (e, c.defType, c.defData)
  | none => none

/-- The ordered attach calls composing one Blueprint onto `e` produces:
exactly the entries whose type hash resolves, in insertion order. -/
def nodeTrace (tm : List (HashValue × TypeId)) (sys : List TypeId)
    (e : Entity) (bp : Blueprint) : List (Entity × HashValue × Payload) :=
  bp.filterMap (traceComponent tm sys e)

mutual
/-- The ordered attach calls creating a whole tree produces when the
generator stands at `gen` before the call: the root gets id `gen + 1`,
children follow depth-first. -/
def treeTrace (tm : List (HashValue × TypeId)) (sys : List TypeId)
    (gen : Entity) : BlueprintTree → List (Entity × HashValue × Payload)
  | .node bp cs =>
    nodeTrace tm sys (gen + 1) bp ++ childTrace tm sys (gen + 1) cs

/-- The ordered attach calls creating a list of child subtrees produces,
each subtree consuming `treeSize` generator ids. -/
def childTrace (tm : List (HashValue × TypeId)) (sys : List TypeId)
    (gen : Entity) : List BlueprintTree → List (Entity × HashValue × Payload)
  | [] => []
  | c :: cs => treeTrace tm sys gen c ++ childTrace tm sys (gen + treeSize c) cs
end

/-- One call on the `EntityFactory` creation/destruction surface, for
reasoning about operation histories. -/
inductive FactoryOp : Type where
  | createEmpty : FactoryOp
  | createNamed (name : String) : FactoryOp
  | createOnNamed (entity : Entity) (name : String) : FactoryOp
  | createFromData (data : Option BlueprintTree) (name : String) : FactoryOp
  | createBlueprint (bp : Option Blueprint) : FactoryOp
  | createTree (t : Option BlueprintTree) : FactoryOp
  | destroy (entity : Entity) : FactoryOp

/-- Runs one operation against the factory state. -/
def runOp (env : Environment) (s : FactoryState) : FactoryOp → FactoryState
  | .createEmpty => (Create s).2
  | .createNamed name => (CreateNamed env s name).2
  | .createOnNamed e name => (CreateOnNamed env s e name).2
  | .createFromData d name => (CreateFromBlueprintData env s d name).2
  | .createBlueprint bp => (CreateFromBlueprintPtr s bp).2
  | .createTree t => (CreateFromTreePtr s t).2
  | .destroy e => Destroy s e

/-- Runs a history of operations left to right. -/
def runOps (env : Environment) (s : FactoryState) : List FactoryOp → FactoryState
  | [] => s
  | op :: rest => runOps env (runOp env s op) rest

/-- An operation is a named-path or raw-data creation of entity `e`, given
that the id generator stands at `gen` when the operation runs: `Create(name)`
and `CreateFromBlueprint(data, name)` succeed and allocate `gen + 1` as the
root, `Create(entity, name)` succeeds on the given non-null entity.
In-memory Blueprint/BlueprintTree creations and everything else never
qualify. -/
def gains (env : Environment) (gen : Entity) (e : Entity) : FactoryOp → Prop
  | .createNamed name =>
    (∃ t, env.assets name = some t) ∧ env.loaderConfigured = true ∧ gen + 1 = e
  | .createOnNamed entity name =>
    entity ≠ kNullEntity ∧ (∃ t, env.assets name = some t) ∧
      env.loaderConfigured = true ∧ entity = e
  | .createFromData data _ =>
    (∃ t, data = some t) ∧ env.loaderConfigured = true ∧ gen + 1 = e
  | _ => False

/-! ## Helper lemmas -/

/-- A hash present in the TypeList reverse-looks-up to an in-bounds index. -/
theorem reverseLookup_lt_length {types : List HashValue} {h : HashValue}
    (hm : h ∈ types) : PerformReverseTypeLookup types h < types.length := by
  unfold PerformReverseTypeLookup
  rw [if_pos hm]
  exact List.indexOf_lt_length.mpr hm

/-- Reverse lookup followed by TypeList indexing recovers a present hash. -/
theorem getD_reverseLookup {types : List HashValue} {h : HashValue}
    (hm : h ∈ types) : types.getD (PerformReverseTypeLookup types h) 0 = h := by
  unfold PerformReverseTypeLookup
  rw [if_pos hm]
  have hlt : types.indexOf h < types.length := List.indexOf_lt_length.mpr hm
  rw [List.getD_eq_getElem _ _ hlt]
  exact List.getElem_indexOf hlt

/-- A hash absent from the TypeList reverse-looks-up to the none sentinel 0. -/
theorem reverseLookup_not_mem {types : List HashValue} {h : HashValue}
    (hm : h ∉ types) : PerformReverseTypeLookup types h = 0 := by
  unfold PerformReverseTypeLookup
  rw [if_neg hm]

/-- Appending elements one at a time in a left fold is mapping. -/
theorem foldl_append_singleton_eq_map {α β : Type} (f : α → β) (l : List α) :
    ∀ acc : List β, l.foldl (fun a c => a ++ [f c]) acc = acc ++ l.map f := by
  induction l with
  | nil => intro acc; simp
  | cons c rest ih => intro acc; simp [List.foldl_cons, ih]

/-- The finalizer writes exactly one `ComponentDef` per blueprint entry, in
blueprint order, into the components vector, and no children vector. -/
theorem finalizer_components (types : List HashValue) (bp : Blueprint) :
    finalizer types bp = .mk (bp.map (finalizeComponent types)) [] := by
  unfold finalizer
  rw [foldl_append_singleton_eq_map]
  simp

/-! ## Claim theorems -/

/-- C6: Finalize encodes a Blueprint in two passes: every (type-hash,
payload) entry, in blueprint order, is reverse-looked-up to its discriminant
ordinal, wrapped into a record of the discriminant and a payload reference,
and appended to the components vector; the parent record written second
references exactly that vector (and nothing else — no children vector); and
an entry whose type hash is absent from the TypeList receives the reserved
none discriminant 0. -/
theorem finalizer_two_pass (types : List HashValue) (bp : Blueprint) :
    finalizer types bp
      = .mk (bp.map (fun c =>
          { def_type := (PerformReverseTypeLookup types c.defType : Int)
            def_data := some c.defData })) []
    ∧ ∀ h : HashValue, h ∉ types → PerformReverseTypeLookup types h = 0 := by
  refine ⟨finalizer_components types bp, ?_⟩
  intro h hm
  exact reverseLookup_not_mem hm

/-- Witness for C6 at a concrete TypeList and Blueprint: hash 3 is at index
0, hash 9 is absent and receives discriminant 0. -/
theorem finalizer_two_pass_witness :
    finalizer [3] [⟨3, 1⟩, ⟨9, 2⟩]
        = .mk [⟨(0 : Int), some 1⟩, ⟨(0 : Int), some 2⟩] []
      ∧ PerformReverseTypeLookup [3] 9 = 0 :=
  ⟨(finalizer_two_pass [3] [⟨3, 1⟩, ⟨9, 2⟩]).1.trans (by rfl),
    (finalizer_two_pass [3] [⟨3, 1⟩, ⟨9, 2⟩]).2 9 (by decide)⟩

/-- C10: the component accessor is total in its index argument's component
record: whenever the component's discriminant is negative, at least the
TypeList's size, or its payload table is null, the accessor returns the pair
(0, nullptr) instead of indexing the TypeList out of bounds (and an index
with no component record at all also yields (0, nullptr)). -/
theorem component_accessor_total (types : List HashValue)
    (components : List ComponentDefRec) (i : Nat) (c : ComponentDefRec)
    (hc : components[i]? = some c)
    (h : c.def_type < 0 ∨ (types.length : Int) ≤ c.def_type
      ∨ c.def_data = none) :
    component_accessor types components i = (0, none) := by
  unfold component_accessor
  rw [hc]
  simp only []
  rw [if_neg]
  rintro ⟨⟨hpos, hlt⟩, hdata⟩
  rcases h with h | h | h
  · omega
  · omega
  · exact hdata h

/-- Witness for C10: a component whose discriminant 5 is out of range for a
one-element TypeList decodes to (0, nullptr). -/
theorem component_accessor_total_witness :
    component_accessor [3] [⟨(5 : Int), some 1⟩] 0 = (0, none) :=
  component_accessor_total [3] [⟨(5 : Int), some 1⟩] 0 ⟨(5 : Int), some 1⟩
    (by decide) (by decide)

/-- Composing one Blueprint onto an entity only appends to the attach trace:
exactly the entries whose type hash resolves to a registered System, in
insertion order; every other field of the factory state is untouched. -/
theorem composeBlueprint_spec (bp : Blueprint) : ∀ (s : FactoryState) (e : Entity),
    composeBlueprint s e bp
      = { s with attached := s.attached ++ nodeTrace s.type_map s.systems e bp } := by
  induction bp with
  | nil => intro s e; simp [composeBlueprint, nodeTrace]
  | cons c rest ih =>
    intro s e
    have hstep : composeBlueprint s e (c :: rest)
        = composeBlueprint (attachComponent s e c) e rest := rfl
    rw [hstep, ih]
    unfold attachComponent nodeTrace traceComponent
    cases hg : GetSystem s.type_map s.systems c.defType with
    | none => simp [nodeTrace, traceComponent, hg]
    | some tid => simp [nodeTrace, traceComponent, hg]

mutual
/-- Characterization of `CreateImplAt`: composing a tree node onto entity `e`
attaches the node's resolvable components to `e` in order, then recurses
into every child subtree in order, handing out generator ids depth-first;
the type map, system table, provenance map, pending queue and links are all
untouched. -/
theorem CreateImplAt_spec (s : FactoryState) (e : Entity) (t : BlueprintTree) :
    CreateImplAt s e t = { s with
      entity_generator := s.entity_generator + treeSizeList t.children,
      attached := s.attached ++ nodeTrace s.type_map s.systems e t.components
        ++ childTrace s.type_map s.systems s.entity_generator t.children } :=
  match t with
  | .node bp cs => by
    have h1 : CreateImplAt s e (.node bp cs)
        = createChildren (composeBlueprint s e bp) e cs := rfl
    rw [h1, composeBlueprint_spec, createChildren_spec]
    simp [BlueprintTree.components, BlueprintTree.children, List.append_assoc]

/-- Characterization of the per-child loop of tree composition under the
default child-linking function. -/
theorem createChildren_spec (s : FactoryState) (p : Entity)
    (cs : List BlueprintTree) :
    createChildren s p cs = { s with
      entity_generator := s.entity_generator + treeSizeList cs,
      attached := s.attached
        ++ childTrace s.type_map s.systems s.entity_generator cs } :=
  match cs with
  | [] => by simp [createChildren, childTrace, treeSizeList]
  | c :: rest => by
    have h1 : createChildren s p (c :: rest)
        = createChildren
            (CreateImplAt { s with entity_generator := s.entity_generator + 1 }
              (s.entity_generator + 1) c) p rest := rfl
    rw [h1, CreateImplAt_spec, createChildren_spec]
    cases c with
    | node bpc csc =>
      simp [childTrace, treeTrace, treeSize, treeSizeList,
        BlueprintTree.components, BlueprintTree.children, List.append_assoc,
        Nat.add_assoc]
end

/-- Characterization of `Create(BlueprintTree*)`: the root gets the next
generator id, the whole tree is composed depth-first, nothing else
changes. -/
theorem CreateFromTree_spec (s : FactoryState) (t : BlueprintTree) :
    CreateFromTree s t = (s.entity_generator + 1, { s with
      entity_generator := s.entity_generator + treeSize t,
      attached := s.attached
        ++ treeTrace s.type_map s.systems s.entity_generator t }) := by
  have h1 : CreateFromTree s t
      = (s.entity_generator + 1,
        CreateImplAt { s with entity_generator := s.entity_generator + 1 }
          (s.entity_generator + 1) t) := rfl
  rw [h1, CreateImplAt_spec]
  cases t with
  | node bp cs =>
    simp [treeTrace, treeSize, treeSizeList, BlueprintTree.components,
      BlueprintTree.children, List.append_assoc, Nat.add_assoc]

/-- C1: for every Blueprint whose entries all use type hashes present in the
TypeList, decoding the binary data produced by encoding it (the finalizer
installed by `InitializeFinalizer`, then the loader's
`BlueprintTreeFromEntityDef`) yields a Blueprint with the same ordered
sequence of (type-hash, payload) entries, and no children. -/
theorem roundtrip_decode_encode (types : List HashValue) (bp : Blueprint)
    (h : ∀ c ∈ bp, c.defType ∈ types) :
    BlueprintTreeFromEntityDef types (finalizer types bp)
      = .node (bp.map (fun c => (c.defType, some c.defData))) [] := by
  rw [finalizer_components, BlueprintTreeFromEntityDef]
  simp only [List.attach_nil, List.map_nil]
  congr 1
  apply List.ext_getElem
  · simp
  · intro i h1 h2
    simp only [List.getElem_map, List.getElem_range, List.length_map,
      List.length_range] at h1 h2 ⊢
    have hmem : bp[i] ∈ bp := List.getElem_mem _
    have hm : bp[i].defType ∈ types := h _ hmem
    unfold component_accessor
    rw [List.getElem?_map, List.getElem?_eq_getElem (by simpa using h1)]
    simp only [Option.map_some', finalizeComponent]
    rw [if_pos]
    · have htn : ((PerformReverseTypeLookup types bp[i].defType : Int)).toNat
          = PerformReverseTypeLookup types bp[i].defType := by
        omega
      rw [htn, getD_reverseLookup hm]
    · refine ⟨⟨by exact_mod_cast Nat.zero_le _, ?_⟩, by simp⟩
      exact_mod_cast reverseLookup_lt_length hm

/-- Witness for C1: a two-entry blueprint over the TypeList [7, 11]
round-trips through encode and decode. -/
theorem roundtrip_decode_encode_witness :
    BlueprintTreeFromEntityDef [7, 11] (finalizer [7, 11] [⟨11, 5⟩, ⟨7, 9⟩])
      = .node [(11, some 5), (7, some 9)] [] :=
  roundtrip_decode_encode [7, 11] [⟨11, 5⟩, ⟨7, 9⟩] (by decide)

/-- C3: for any sequence of calls to the no-argument `Create()`, the returned
entity ids are pairwise distinct and strictly increasing (so an id, once
returned, is never handed out again), and the generator advances
monotonically, by exactly one per call.  The protecting mutex collapses to
sequential execution in this single-threaded model. -/
theorem create_ids_pairwise_distinct (s : FactoryState) (n : Nat) :
    (CreateN s n).1.Pairwise (fun a b => a ≠ b)
    ∧ (CreateN s n).1.Pairwise (fun a b => a < b)
    ∧ (CreateN s n).2.entity_generator = s.entity_generator + n := by
  have key : ∀ (m : Nat) (st : FactoryState),
      (CreateN st m).1 = List.range' (st.entity_generator + 1) m
      ∧ (CreateN st m).2.entity_generator = st.entity_generator + m := by
    intro m
    induction m with
    | zero => intro st; exact ⟨rfl, rfl⟩
    | succ k ih =>
      intro st
      have h1 : (CreateN st (k + 1)).1
          = (st.entity_generator + 1) :: (CreateN (Create st).2 k).1 := rfl
      have h2 : (CreateN st (k + 1)).2 = (CreateN (Create st).2 k).2 := rfl
      refine ⟨?_, ?_⟩
      · rw [h1, (ih (Create st).2).1, List.range'_succ]
        rfl
      · rw [h2, (ih (Create st).2).2]
        show st.entity_generator + 1 + k = st.entity_generator + (k + 1)
        ring
  have hlt : (CreateN s n).1.Pairwise (fun a b => a < b) := by
    rw [(key n s).1]
    exact List.pairwise_lt_range' _ _
  exact ⟨hlt.imp ne_of_lt, hlt, (key n s).2⟩

/-- C5: when no hierarchy subsystem has overridden the child-linking
function, the default `create_child_fn_` ignores the parent argument and
simply calls `Create` on the child tree, so each child subtree becomes an
independent root entity and no parent/child link is recorded. -/
theorem default_create_child_ignores_parent (s : FactoryState) (p q : Entity)
    (t : BlueprintTree) :
    create_child_fn_default s p t = create_child_fn_default s q t
    ∧ create_child_fn_default s p t = CreateFromTree s t
    ∧ (create_child_fn_default s p t).2.links = s.links := by
  refine ⟨rfl, rfl, ?_⟩
  have h1 : create_child_fn_default s p t = CreateFromTree s t := rfl
  rw [h1, CreateFromTree_spec]

/-- C7: `Create(name)` resolves the named blueprint through the asset cache
and decodes it via the configured Loader; it returns the null entity
sentinel and leaves the factory state unchanged whenever the named asset is
missing or no Loader has been configured. -/
theorem create_named_fails_closed (env : Environment) (s : FactoryState)
    (name : String)
    (h : env.assets name = none ∨ env.loaderConfigured = false) :
    CreateNamed env s name = (kNullEntity, s) := by
  unfold CreateNamed
  cases ha : env.assets name with
  | none => rfl
  | some t =>
    rcases h with h | h
    · rw [ha] at h
      exact absurd h (by simp)
    · rw [h]
      rfl

/-- Witness for C7: with an empty asset cache, creating by name yields the
null entity and an unchanged state. -/
theorem create_named_fails_closed_witness :
    CreateNamed ⟨fun _ => none, true⟩ ⟨0, [], [], [], [], [], []⟩ "a"
      = (kNullEntity, ⟨0, [], [], [], [], [], []⟩) :=
  create_named_fails_closed ⟨fun _ => none, true⟩ ⟨0, [], [], [], [], [], []⟩
    "a" (Or.inl rfl)

/-- C8: passing a null entity or a null blueprint pointer to any creation
operation expecting one makes the call a no-op that returns the failure
sentinel and leaves the factory state unchanged; `Destroy` of the null
entity is likewise a no-op. -/
theorem null_args_noop (env : Environment) (s : FactoryState) (e : Entity)
    (t : Option BlueprintTree) (name : String) :
    CreateFromBlueprintPtr s none = (kNullEntity, s)
    ∧ CreateFromTreePtr s none = (kNullEntity, s)
    ∧ CreateOnTree s kNullEntity t = (kNullEntity, s)
    ∧ CreateOnTree s e none = (kNullEntity, s)
    ∧ CreateOnNamed env s kNullEntity name = (kNullEntity, s)
    ∧ CreateFromBlueprintData env s none name = (kNullEntity, s)
    ∧ Destroy s kNullEntity = s := by
  refine ⟨rfl, rfl, by simp [CreateOnTree], ?_, by simp [CreateOnNamed], rfl,
    by simp [Destroy]⟩
  unfold CreateOnTree
  by_cases he : e = kNullEntity
  · rw [if_pos he]
  · rw [if_neg he]

/-- C2: during composition of a Blueprint or BlueprintTree node, every
(type-hash, payload) entry whose type hash does not resolve (no TypeMap
entry, or no registered System behind it) is skipped without aborting: the
attach trace extends by exactly the resolvable entries of the node in order,
followed by the traces of all child subtrees in order; a skipped entry
contributes no attach call, and every resolvable entry on the node is still
attached. -/
theorem compose_skips_unregistered (s : FactoryState) (e : Entity)
    (bp : Blueprint) (cs : List BlueprintTree) :
    (CreateImplAt s e (.node bp cs)).attached
        = s.attached ++ nodeTrace s.type_map s.systems e bp
          ++ childTrace s.type_map s.systems s.entity_generator cs
    ∧ (∀ c ∈ bp, GetSystem s.type_map s.systems c.defType = none →
        traceComponent s.type_map s.systems e c = none)
    ∧ (∀ c ∈ bp, GetSystem s.type_map s.systems c.defType ≠ none →
        (e, c.defType, c.defData) ∈ (CreateImplAt s e (.node bp cs)).attached) := by
  have hchar : (CreateImplAt s e (.node bp cs)).attached
      = s.attached ++ nodeTrace s.type_map s.systems e bp
        ++ childTrace s.type_map s.systems s.entity_generator cs := by
    rw [CreateImplAt_spec]
    simp [BlueprintTree.components, BlueprintTree.children, List.append_assoc]
  refine ⟨hchar, ?_, ?_⟩
  · intro c _ hnone
    unfold traceComponent
    rw [hnone]
  · intro c hmem hsome
    rw [hchar]
    cases hg : GetSystem s.type_map s.systems c.defType with
    | none => exact absurd hg hsome
    | some tid =>
      have : (e, c.defType, c.defData) ∈ nodeTrace s.type_map s.systems e bp := by
        unfold nodeTrace
        apply List.mem_filterMap.mpr
        exact ⟨c, hmem, by unfold traceComponent; rw [hg]⟩
      simp [List.mem_append, this]

/-- Witness for C2: on a node whose TypeMap registers hash 7 to System 1 but
not hash 9, the entry with hash 7 is still attached while 9 is skipped. -/
theorem compose_skips_unregistered_witness :
    (5, 7, 42) ∈ (CreateImplAt ⟨10, [(7, 1)], [1], [], [], [], []⟩ 5
      (.node [⟨9, 3⟩, ⟨7, 42⟩] [])).attached :=
  (compose_skips_unregistered ⟨10, [(7, 1)], [1], [], [], [], []⟩ 5
    [⟨9, 3⟩, ⟨7, 42⟩] []).2.2 ⟨7, 42⟩ (by decide) (by decide)

/-- Lookup skips a cons cell with a different key. -/
theorem lookup_cons_of_ne {e k : Entity} {v : String} {l : List (Entity × String)}
    (h : e ≠ k) : ((k, v) :: l).lookup e = l.lookup e := by
  have hb : (e == k) = false := beq_eq_false_iff_ne.mpr h
  simp [List.lookup, hb]

/-- Lookup finds the head cons cell with the matching key. -/
theorem lookup_cons_self {e : Entity} {v : String} {l : List (Entity × String)} :
    ((e, v) :: l).lookup e = some v := by
  simp [List.lookup]

/-- Association-list lookup of a key never finds anything in a list filtered
to exclude that key. -/
theorem lookup_filter_self (x : Entity) (l : List (Entity × String)) :
    (l.filter (fun p => p.1 ≠ x)).lookup x = none := by
  induction l with
  | nil => rfl
  | cons kv rest ih =>
    obtain ⟨k, v⟩ := kv
    by_cases h : k = x
    · rw [List.filter_cons, if_neg (by simp [h])]
      exact ih
    · rw [List.filter_cons, if_pos (by simp [h])]
      rw [lookup_cons_of_ne (Ne.symm h)]
      exact ih

/-- Filtering an association list cannot make an absent key present. -/
theorem lookup_filter_none {e : Entity} {l : List (Entity × String)}
    (p : Entity × String → Bool) (h : l.lookup e = none) :
    (l.filter p).lookup e = none := by
  induction l with
  | nil => rfl
  | cons kv rest ih =>
    obtain ⟨k, v⟩ := kv
    by_cases hk : e = k
    · subst hk
      rw [lookup_cons_self] at h
      cases h
    · rw [lookup_cons_of_ne hk] at h
      by_cases hp : p (k, v) = true
      · rw [List.filter_cons, if_pos hp, lookup_cons_of_ne hk]
        exact ih h
      · rw [List.filter_cons, if_neg hp]
        exact ih h

/-- Filtering an association list on a different key preserves a key's
lookup. -/
theorem lookup_filter_other {e x : Entity} (l : List (Entity × String))
    (h : e ≠ x) :
    (l.filter (fun p => p.1 ≠ x)).lookup e = l.lookup e := by
  induction l with
  | nil => rfl
  | cons kv rest ih =>
    obtain ⟨k, v⟩ := kv
    by_cases hk : k = x
    · rw [List.filter_cons, if_neg (by simp [hk])]
      rw [ih, lookup_cons_of_ne (by rw [hk]; exact h)]
    · rw [List.filter_cons, if_pos (by simp [hk])]
      by_cases he : e = k
      · subst he
        rw [lookup_cons_self, lookup_cons_self]
      · rw [lookup_cons_of_ne he, lookup_cons_of_ne he, ih]

/-- `Destroy` leaves the pending-destruction queue alone. -/
theorem destroy_pending (s : FactoryState) (x : Entity) :
    (Destroy s x).pending_destroy = s.pending_destroy := by
  unfold Destroy
  by_cases h : x = kNullEntity <;> simp [h]

/-- `Destroy` of a non-null entity leaves no provenance entry and no attached
component for it. -/
theorem destroy_clears (s : FactoryState) (x : Entity) (h : x ≠ kNullEntity) :
    (Destroy s x).entity_to_blueprint_map.lookup x = none
    ∧ ∀ r ∈ (Destroy s x).attached, r.1 ≠ x := by
  unfold Destroy
  rw [if_neg h]
  refine ⟨lookup_filter_self x _, ?_⟩
  intro r hr
  have := List.of_mem_filter hr
  simpa using this

/-- `Destroy` cannot resurrect a provenance entry or an attached component. -/
theorem destroy_preserves_clear (s : FactoryState) (x e : Entity)
    (h1 : s.entity_to_blueprint_map.lookup e = none)
    (h2 : ∀ r ∈ s.attached, r.1 ≠ e) :
    (Destroy s x).entity_to_blueprint_map.lookup e = none
    ∧ ∀ r ∈ (Destroy s x).attached, r.1 ≠ e := by
  unfold Destroy
  by_cases hx : x = kNullEntity
  · rw [if_pos hx]; exact ⟨h1, h2⟩
  · rw [if_neg hx]
    refine ⟨lookup_filter_none _ h1, ?_⟩
    intro r hr
    exact h2 r (List.mem_of_mem_filter hr)

/-- Folding `Destroy` over a queue preserves a fully-cleared entity. -/
theorem destroy_fold_preserves (q : List Entity) : ∀ (st : FactoryState)
    (e : Entity),
    st.entity_to_blueprint_map.lookup e = none → (∀ r ∈ st.attached, r.1 ≠ e) →
    (q.foldl Destroy st).entity_to_blueprint_map.lookup e = none
    ∧ ∀ r ∈ (q.foldl Destroy st).attached, r.1 ≠ e := by
  induction q with
  | nil => intro st e h1 h2; exact ⟨h1, h2⟩
  | cons x rest ih =>
    intro st e h1 h2
    have hc := destroy_preserves_clear st x e h1 h2
    exact ih (Destroy st x) e hc.1 hc.2

/-- Folding `Destroy` over a queue clears every non-null entity in it. -/
theorem destroy_fold_clears (q : List Entity) : ∀ (st : FactoryState)
    (e : Entity), e ∈ q → e ≠ kNullEntity →
    (q.foldl Destroy st).entity_to_blueprint_map.lookup e = none
    ∧ ∀ r ∈ (q.foldl Destroy st).attached, r.1 ≠ e := by
  induction q with
  | nil => intro st e he; cases he
  | cons x rest ih =>
    intro st e he hnull
    rcases List.mem_cons.mp he with rfl | hmem
    · have hc := destroy_clears st e hnull
      exact destroy_fold_preserves rest (Destroy st e) e hc.1 hc.2
    · exact ih (Destroy st x) e hmem hnull

/-- Folding `Destroy` never touches the pending queue. -/
theorem destroy_fold_pending (q : List Entity) : ∀ st : FactoryState,
    (q.foldl Destroy st).pending_destroy = st.pending_destroy := by
  induction q with
  | nil => intro st; rfl
  | cons x rest ih =>
    intro st
    have h1 : (x :: rest).foldl Destroy st = rest.foldl Destroy (Destroy st x) := rfl
    rw [h1, ih, destroy_pending]

/-- Queueing a batch appends it to the pending queue and changes nothing
else. -/
theorem queue_fold_spec (es : List Entity) : ∀ s : FactoryState,
    es.foldl QueueForDestruction s
      = { s with pending_destroy := s.pending_destroy ++ es } := by
  induction es with
  | nil => intro s; simp
  | cons e rest ih =>
    intro s
    have h1 : (e :: rest).foldl QueueForDestruction s
        = rest.foldl QueueForDestruction (QueueForDestruction s e) := rfl
    rw [h1, ih]
    simp [QueueForDestruction, List.append_assoc]

/-- C9: after N `QueueForDestruction` calls followed by one
`DestroyQueuedEntities`, every one of those N (non-null) entities has been
destroyed: none remains in the provenance map, the pending-destruction queue
is completely drained, and no attached component is owned by any of them.
(Per spec §3, ids passed to `QueueForDestruction` are ids previously returned
by `Create`, hence non-null.) -/
theorem drain_completeness (s : FactoryState) (es : List Entity) (e : Entity)
    (he : e ∈ es) (hnull : e ≠ kNullEntity) :
    (DestroyQueuedEntities (es.foldl QueueForDestruction s)).entity_to_blueprint_map.lookup e
        = none
    ∧ (DestroyQueuedEntities (es.foldl QueueForDestruction s)).pending_destroy = []
    ∧ ∀ r ∈ (DestroyQueuedEntities (es.foldl QueueForDestruction s)).attached,
        r.1 ≠ e := by
  have hstep : DestroyQueuedEntities (es.foldl QueueForDestruction s)
      = (s.pending_destroy ++ es).foldl Destroy
          { s with pending_destroy := [] } := by
    rw [queue_fold_spec]
    rfl
  rw [hstep]
  have hq : e ∈ s.pending_destroy ++ es := List.mem_append.mpr (Or.inr he)
  have hc := destroy_fold_clears (s.pending_destroy ++ es)
    { s with pending_destroy := [] } e hq hnull
  refine ⟨hc.1, ?_, hc.2⟩
  rw [destroy_fold_pending]

/-- Witness for C9: queueing entities 4 and 6 then draining leaves no trace
of entity 4. -/
theorem drain_completeness_witness :
    (DestroyQueuedEntities ([4, 6].foldl QueueForDestruction
        ⟨9, [], [], [(4, "a")], [], [(4, 7, 1)], []⟩)).entity_to_blueprint_map.lookup 4
        = none
    ∧ (DestroyQueuedEntities ([4, 6].foldl QueueForDestruction
        ⟨9, [], [], [(4, "a")], [], [(4, 7, 1)], []⟩)).pending_destroy = []
    ∧ ∀ r ∈ (DestroyQueuedEntities ([4, 6].foldl QueueForDestruction
        ⟨9, [], [], [(4, "a")], [], [(4, 7, 1)], []⟩)).attached, r.1 ≠ 4 :=
  drain_completeness ⟨9, [], [], [(4, "a")], [], [(4, 7, 1)], []⟩ [4, 6] 4
    (by decide) (by decide)

/-- Composing a tree never touches the provenance map. -/
theorem createImplAt_prov (s : FactoryState) (e : Entity) (t : BlueprintTree) :
    (CreateImplAt s e t).entity_to_blueprint_map = s.entity_to_blueprint_map := by
  rw [CreateImplAt_spec]

/-- Composing a blueprint never touches the provenance map. -/
theorem composeBlueprint_prov (s : FactoryState) (e : Entity) (bp : Blueprint) :
    (composeBlueprint s e bp).entity_to_blueprint_map
      = s.entity_to_blueprint_map := by
  rw [composeBlueprint_spec]

/-- Running a history plus one operation is running the history, then the
operation. -/
theorem runOps_append (env : Environment) (ops : List FactoryOp)
    (op : FactoryOp) : ∀ s : FactoryState,
    runOps env s (ops ++ [op]) = runOp env (runOps env s ops) op := by
  induction ops with
  | nil => intro s; rfl
  | cons o rest ih => intro s; exact ih (runOp env s o)

/-- `Create(name)` on a missing asset or missing Loader is a failure. -/
theorem createNamed_fail (env : Environment) (s : FactoryState) (name : String)
    (h : env.assets name = none ∨ env.loaderConfigured = false) :
    CreateNamed env s name = (kNullEntity, s) := by
  unfold CreateNamed
  cases ha : env.assets name with
  | none => rfl
  | some t =>
    rcases h with h | h
    · rw [ha] at h
      exact absurd h (by simp)
    · rw [h]
      rfl

/-- The provenance entry `Create(name)` records on success. -/
theorem createNamed_prov_success (env : Environment) (s : FactoryState)
    (name : String) (t : BlueprintTree) (ha : env.assets name = some t)
    (hl : env.loaderConfigured = true) :
    (CreateNamed env s name).2.entity_to_blueprint_map
      = (s.entity_generator + 1, name) :: s.entity_to_blueprint_map := by
  unfold CreateNamed
  rw [ha]
  simp only [hl, if_true]
  show ((s.entity_generator + 1, name)
      :: (CreateImplAt { s with entity_generator := s.entity_generator + 1 }
        (s.entity_generator + 1) t).entity_to_blueprint_map)
    = (s.entity_generator + 1, name) :: s.entity_to_blueprint_map
  rw [createImplAt_prov]

/-- `Create(entity, name)` on a null entity, missing asset or missing Loader
is a failure. -/
theorem createOnNamed_fail (env : Environment) (s : FactoryState)
    (ent : Entity) (name : String)
    (h : ent = kNullEntity ∨ env.assets name = none
      ∨ env.loaderConfigured = false) :
    CreateOnNamed env s ent name = (kNullEntity, s) := by
  unfold CreateOnNamed
  by_cases hent : ent = kNullEntity
  · rw [if_pos hent]
  · rw [if_neg hent]
    cases ha : env.assets name with
    | none => rfl
    | some t =>
      rcases h with h | h | h
      · exact absurd h hent
      · rw [ha] at h
        exact absurd h (by simp)
      · rw [h]
        rfl

/-- The provenance entry `Create(entity, name)` records on success. -/
theorem createOnNamed_prov_success (env : Environment) (s : FactoryState)
    (ent : Entity) (name : String) (t : BlueprintTree)
    (hne : ent ≠ kNullEntity) (ha : env.assets name = some t)
    (hl : env.loaderConfigured = true) :
    (CreateOnNamed env s ent name).2.entity_to_blueprint_map
      = (ent, name) :: s.entity_to_blueprint_map := by
  unfold CreateOnNamed
  rw [if_neg hne, ha]
  simp only [hl, if_true]
  show ((ent, name)
      :: (CreateImplAt s ent t).entity_to_blueprint_map)
    = (ent, name) :: s.entity_to_blueprint_map
  rw [createImplAt_prov]

/-- `CreateFromBlueprint` with data but no Loader is a failure. -/
theorem createFromData_noloader (env : Environment) (s : FactoryState)
    (t : BlueprintTree) (name : String) (hl : env.loaderConfigured = false) :
    CreateFromBlueprintData env s (some t) name = (kNullEntity, s) := by
  unfold CreateFromBlueprintData
  rw [hl]
  rfl

/-- The provenance entry `CreateFromBlueprint` records on success. -/
theorem createFromData_prov_success (env : Environment) (s : FactoryState)
    (t : BlueprintTree) (name : String) (hl : env.loaderConfigured = true) :
    (CreateFromBlueprintData env s (some t) name).2.entity_to_blueprint_map
      = (s.entity_generator + 1, name) :: s.entity_to_blueprint_map := by
  unfold CreateFromBlueprintData
  simp only [hl, if_true]
  show ((s.entity_generator + 1, name)
      :: (CreateImplAt { s with entity_generator := s.entity_generator + 1 }
        (s.entity_generator + 1) t).entity_to_blueprint_map)
    = (s.entity_generator + 1, name) :: s.entity_to_blueprint_map
  rw [createImplAt_prov]

/-- An operation that qualifies as a named/raw-data creation of `e` leaves a
provenance entry for `e`. -/
theorem runOp_lookup_of_gains (env : Environment) (st : FactoryState)
    (e : Entity) (op : FactoryOp) (hg : gains env st.entity_generator e op) :
    ((runOp env st op).entity_to_blueprint_map.lookup e).isSome = true := by
  cases op with
  | createNamed name =>
    obtain ⟨⟨t, ha⟩, hl, hgen⟩ := hg
    have hrun : runOp env st (.createNamed name) = (CreateNamed env st name).2 :=
      rfl
    rw [hrun, createNamed_prov_success env st name t ha hl, hgen,
      lookup_cons_self]
    rfl
  | createOnNamed ent name =>
    obtain ⟨hne, ⟨t, ha⟩, hl, hent⟩ := hg
    have hrun : runOp env st (.createOnNamed ent name)
        = (CreateOnNamed env st ent name).2 := rfl
    rw [hrun, createOnNamed_prov_success env st ent name t hne ha hl, hent,
      lookup_cons_self]
    rfl
  | createFromData data name =>
    obtain ⟨⟨t, hdt⟩, hl, hgen⟩ := hg
    subst hdt
    have hrun : runOp env st (.createFromData (some t) name)
        = (CreateFromBlueprintData env st (some t) name).2 := rfl
    rw [hrun, createFromData_prov_success env st t name hl, hgen,
      lookup_cons_self]
    rfl
  | createEmpty => exact hg.elim
  | createBlueprint bp => exact hg.elim
  | createTree t => exact hg.elim
  | destroy x => exact hg.elim

/-- An operation that is neither a qualifying named/raw-data creation of `e`
nor a destruction of `e` preserves the provenance lookup of `e`. -/
theorem runOp_lookup_preserved (env : Environment) (st : FactoryState)
    (e : Entity) (op : FactoryOp)
    (hg : ¬ gains env st.entity_generator e op)
    (hd : op ≠ FactoryOp.destroy e) :
    (runOp env st op).entity_to_blueprint_map.lookup e
      = st.entity_to_blueprint_map.lookup e := by
  cases op with
  | createEmpty => rfl
  | createBlueprint bp =>
    cases bp with
    | none => rfl
    | some b =>
      show ((composeBlueprint _ _ b).entity_to_blueprint_map).lookup e = _
      rw [composeBlueprint_prov]
  | createTree t =>
    cases t with
    | none => rfl
    | some tr =>
      show ((CreateImplAt _ _ tr).entity_to_blueprint_map).lookup e = _
      rw [createImplAt_prov]
  | createNamed name =>
    have hrun : runOp env st (.createNamed name) = (CreateNamed env st name).2 :=
      rfl
    rw [hrun]
    cases ha : env.assets name with
    | none => rw [createNamed_fail env st name (Or.inl ha)]
    | some t =>
      by_cases hl : env.loaderConfigured = true
      · have hne : e ≠ st.entity_generator + 1 := by
          intro hc
          exact hg ⟨⟨t, ha⟩, hl, hc.symm⟩
        rw [createNamed_prov_success env st name t ha hl,
          lookup_cons_of_ne hne]
      · rw [Bool.not_eq_true] at hl
        rw [createNamed_fail env st name (Or.inr hl)]
  | createOnNamed ent name =>
    have hrun : runOp env st (.createOnNamed ent name)
        = (CreateOnNamed env st ent name).2 := rfl
    rw [hrun]
    by_cases hent : ent = kNullEntity
    · rw [createOnNamed_fail env st ent name (Or.inl hent)]
    · cases ha : env.assets name with
      | none => rw [createOnNamed_fail env st ent name (Or.inr (Or.inl ha))]
      | some t =>
        by_cases hl : env.loaderConfigured = true
        · have hne : e ≠ ent := by
            intro hc
            exact hg ⟨hent, ⟨t, ha⟩, hl, hc.symm⟩
          rw [createOnNamed_prov_success env st ent name t hent ha hl,
            lookup_cons_of_ne hne]
        · rw [Bool.not_eq_true] at hl
          rw [createOnNamed_fail env st ent name (Or.inr (Or.inr hl))]
  | createFromData data name =>
    cases data with
    | none => rfl
    | some t =>
      have hrun : runOp env st (.createFromData (some t) name)
          = (CreateFromBlueprintData env st (some t) name).2 := rfl
      rw [hrun]
      by_cases hl : env.loaderConfigured = true
      · have hne : e ≠ st.entity_generator + 1 := by
          intro hc
          exact hg ⟨⟨t, rfl⟩, hl, hc.symm⟩
        rw [createFromData_prov_success env st t name hl,
          lookup_cons_of_ne hne]
      · rw [Bool.not_eq_true] at hl
        rw [createFromData_noloader env st t name hl]
  | destroy x =>
    have hx : x ≠ e := by
      intro hc
      exact hd (by rw [hc])
    have hrun : runOp env st (.destroy x) = Destroy st x := rfl
    rw [hrun]
    unfold Destroy
    by_cases hxn : x = kNullEntity
    · rw [if_pos hxn]
    · rw [if_neg hxn]
      exact lookup_filter_other _ (Ne.symm hx)

/-- No operation ever records a provenance entry for the null entity. -/
theorem runOp_null_lookup (env : Environment) (s : FactoryState)
    (op : FactoryOp)
    (h : s.entity_to_blueprint_map.lookup kNullEntity = none) :
    (runOp env s op).entity_to_blueprint_map.lookup kNullEntity = none := by
  by_cases hd : op = FactoryOp.destroy kNullEntity
  · subst hd
    have hrun : runOp env s (.destroy kNullEntity) = Destroy s kNullEntity :=
      rfl
    rw [hrun]
    unfold Destroy
    rw [if_pos rfl]
    exact h
  · by_cases hg : gains env s.entity_generator kNullEntity op
    · exfalso
      cases op with
      | createNamed name => exact absurd hg.2.2 (by simp [kNullEntity])
      | createOnNamed ent name => exact hg.1 hg.2.2.2
      | createFromData d name => exact absurd hg.2.2 (by simp [kNullEntity])
      | createEmpty => exact hg
      | createBlueprint bp => exact hg
      | createTree t => exact hg
      | destroy x => exact hg
    · rw [runOp_lookup_preserved env s kNullEntity op hg hd]
      exact h

/-- No history ever records a provenance entry for the null entity. -/
theorem runOps_null_lookup (env : Environment) (ops : List FactoryOp) :
    ∀ s : FactoryState,
    s.entity_to_blueprint_map.lookup kNullEntity = none →
    (runOps env s ops).entity_to_blueprint_map.lookup kNullEntity = none := by
  induction ops with
  | nil => intro s h; exact h
  | cons op rest ih =>
    intro s h
    exact ih (runOp env s op) (runOp_null_lookup env s op h)

/-- C4: starting from a factory with an empty provenance map, the
entity-to-blueprint map contains an entry for entity `e` after a history of
operations if and only if some operation in the history was a successful
named-path creation (`Create(name)`, `Create(entity, name)`) or raw-data
creation (`CreateFromBlueprint`) of `e`, and no later operation destroyed
`e`.  In particular, in-memory Blueprint/BlueprintTree creations never gain
an entry, and `Destroy` removes the entry. -/
theorem provenance_iff_named_live (env : Environment) (s : FactoryState)
    (ops : List FactoryOp) (e : Entity)
    (h0 : s.entity_to_blueprint_map = []) :
    ((runOps env s ops).entity_to_blueprint_map.lookup e).isSome = true
      ↔ ∃ l op r, ops = l ++ op :: r
          ∧ gains env (runOps env s l).entity_generator e op
          ∧ ∀ o ∈ r, o ≠ FactoryOp.destroy e := by
  induction ops using List.reverseRecOn with
  | nil =>
    constructor
    · intro h
      exfalso
      have hnil : (runOps env s []).entity_to_blueprint_map = [] := h0
      rw [hnil] at h
      simp [List.lookup] at h
    · rintro ⟨l, o, r, heq, -, -⟩
      exact absurd heq (by simp)
  | append_singleton l0 op ih =>
    rw [runOps_append]
    by_cases hg : gains env (runOps env s l0).entity_generator e op
    · constructor
      · intro _
        exact ⟨l0, op, [], rfl, hg, by simp⟩
      · intro _
        exact runOp_lookup_of_gains env _ e op hg
    · by_cases hd : op = FactoryOp.destroy e
      · subst hd
        constructor
        · intro hsome
          exfalso
          by_cases hne : e = kNullEntity
          · subst hne
            have h1 := runOps_null_lookup env l0 s (by rw [h0]; rfl)
            have h2 := runOp_null_lookup env (runOps env s l0)
              (.destroy kNullEntity) h1
            rw [h2] at hsome
            simp at hsome
          · have hrun : runOp env (runOps env s l0) (.destroy e)
                = Destroy (runOps env s l0) e := rfl
            have h2 : (runOp env (runOps env s l0)
                (.destroy e)).entity_to_blueprint_map.lookup e = none := by
              rw [hrun]
              unfold Destroy
              rw [if_neg hne]
              exact lookup_filter_self e _
            rw [h2] at hsome
            simp at hsome
        · rintro ⟨l, o, r, heq, hgain, hr⟩
          exfalso
          rcases List.eq_nil_or_concat r with rfl | ⟨r0, x, rfl⟩
          · obtain ⟨hl, ho⟩ := List.append_inj' heq rfl
            have : o = FactoryOp.destroy e := by
              injection ho.symm
            rw [this] at hgain
            exact hgain
          · rw [List.concat_eq_append] at heq hr
            have heq2 : (l ++ o :: r0) ++ [x] = l0 ++ [FactoryOp.destroy e] := by
              rw [List.append_assoc]
              exact heq.symm
            have hx : x = FactoryOp.destroy e := by
              have := (List.append_inj' heq2 rfl).2
              injection this
            exact hr x (by simp) hx
      · rw [runOp_lookup_preserved env _ e op hg hd, ih]
        constructor
        · rintro ⟨l, o, r, heq, hgain, hr⟩
          refine ⟨l, o, r ++ [op], ?_, hgain, ?_⟩
          · rw [heq, List.append_assoc]
            rfl
          · intro o2 ho2
            rcases List.mem_append.mp ho2 with hin | hin
            · exact hr o2 hin
            · rw [List.mem_singleton.mp hin]
              exact hd
        · rintro ⟨l, o, r, heq, hgain, hr⟩
          rcases List.eq_nil_or_concat r with rfl | ⟨r0, x, rfl⟩
          · obtain ⟨hl, ho⟩ := List.append_inj' heq rfl
            have hoo : o = op := by injection ho.symm
            rw [hl] at hg
            rw [hoo] at hgain
            exact absurd hgain hg
          · rw [List.concat_eq_append] at heq hr
            have heq2 : (l ++ o :: r0) ++ [x] = l0 ++ [op] := by
              rw [List.append_assoc]
              exact heq.symm
            obtain ⟨hl, hx⟩ := List.append_inj' heq2 rfl
            refine ⟨l, o, r0, hl.symm, hgain, ?_⟩
            intro o2 ho2
            exact hr o2 (List.mem_append.mpr (Or.inl ho2))

/-- Witness for C4: after a raw-data creation of entity 1 followed by an
in-memory creation and a destruction of entity 2, entity 1 still has a
provenance entry. -/
theorem provenance_iff_named_live_witness :
    ((runOps ⟨fun _ => none, true⟩ ⟨0, [], [], [], [], [], []⟩
        [.createFromData (some (.node [] [])) "a", .createBlueprint (some []),
          .destroy 2]).entity_to_blueprint_map.lookup 1).isSome = true :=
  (provenance_iff_named_live ⟨fun _ => none, true⟩ ⟨0, [], [], [], [], [], []⟩
      [.createFromData (some (.node [] [])) "a", .createBlueprint (some []),
        .destroy 2] 1 rfl).mpr
    ⟨[], .createFromData (some (.node [] [])) "a",
      [.createBlueprint (some []), .destroy 2], rfl,
      ⟨⟨.node [] [], rfl⟩, rfl, rfl⟩, by
        intro o ho
        fin_cases ho <;> simp⟩

end lull
